import Mathlib

/-!
Verification of the system-monitoring backend (`src/app.ts`).

Shallow embedding of the sampling-aggregation-broadcast pipeline of
`src/app.ts`.  JavaScript numbers are modelled as rationals (`ℚ`); the
float-specific behaviour abstracted away is irrelevant to the claims
checked here (every concrete input used is exactly representable).
`parseFloat(x.toFixed(1))` is modelled as rounding to one decimal with
half rounded up (the `Number.prototype.toFixed` tie rule: of the two
closest candidates, the larger is chosen).  Fallible asynchronous
queries are modelled as `Except Unit` values; `Promise.all` over them
succeeds exactly when every component does, mirroring the single
`try`/`catch` around each tick.
-/

namespace SysMon

/-- Rounding to one decimal with ties upward: `parseFloat(x.toFixed(1))`. -/
def round1 (x : ℚ) : ℚ := (⌊10 * x + 1 / 2⌋ : ℚ) / 10

/-- The bytes→GiB divisor `1024 ** 3` used in the aggregation. -/
def gib : ℚ := 1024 ^ 3

/-- Result of `si.currentLoad()` restricted to the field the code reads. -/
structure CpuLoad where
  currentLoad : ℚ
deriving Repr, DecidableEq

/-- Result of `si.cpuTemperature()`; `main` may be absent (`undefined`). -/
structure CpuTemp where
  main : Option ℚ
deriving Repr, DecidableEq

/-- Result of `si.mem()` restricted to the fields the code reads. -/
structure MemInfo where
  active : ℚ
  total : ℚ
deriving Repr, DecidableEq

/-- One entry of the `si.fsSize()` result. -/
structure Volume where
  used : ℚ
  size : ℚ
deriving Repr, DecidableEq

/-- One entry of `si.networkStats()`; `rx_sec`/`tx_sec` may be `null`. -/
structure NetStat where
  rx_sec : Option ℚ
  tx_sec : Option ℚ
deriving Repr, DecidableEq

/-- One entry of `si.processes().list`. -/
structure ProcIn where
  pid : ℕ
  name : String
  user : String
  cpu : ℚ
  mem : ℚ
  state : String
deriving Repr, DecidableEq

/-- Result of `si.processes()` restricted to the field the code reads. -/
structure ProcessesResult where
  list : List ProcIn
deriving Repr, DecidableEq

/-- Result of the synchronous `si.time()` call. -/
structure TimeInfo where
  uptime : ℚ
deriving Repr, DecidableEq

/-- The published `SystemStats` record (field set as in the TS interface). -/
structure SystemStats where
  cpuUsage : ℚ
  cpuTemp : ℚ
  memoryUsed : ℚ
  memoryTotal : ℚ
  storageUsed : ℚ
  storageTotal : ℚ
  networkUp : ℚ
  networkDown : ℚ
  uptime : ℚ
deriving Repr, DecidableEq

/-- One published process entry (after rounding and state mapping). -/
structure ProcOut where
  pid : ℕ
  name : String
  user : String
  cpu : ℚ
  mem : ℚ
  status : String
deriving Repr, DecidableEq

/-- Model of `fsSize.length > 0 ? fsSize.reduce((prev, current) =>
(prev.size > current.size) ? prev : current) : \x7bused: 0, size: 0\x7d`.
JavaScript `reduce` without a seed folds from the left starting at the
first element. -/
def mainDrive : List Volume → Volume
  | [] => ⟨0, 0⟩
  | v :: vs => vs.foldl (fun prev current => if prev.size > current.size then prev else current) v

/-- Model of `networkStats.reduce((acc, iface) => acc + (iface.rx_sec || 0), 0)`;
here `x || 0` sends `null`/`undefined` (and `0` itself) to `0`. -/
def netRxSec (l : List NetStat) : ℚ :=
  l.foldl (fun acc iface => acc + iface.rx_sec.getD 0) 0

/-- Model of `networkStats.reduce((acc, iface) => acc + (iface.tx_sec || 0), 0)`. -/
def netTxSec (l : List NetStat) : ℚ :=
  l.foldl (fun acc iface => acc + iface.tx_sec.getD 0) 0

/-- The `stats` object built in the tick callback, as a function of the six
resolved query results.  `cpuTemp.main || 0` agrees with `Option.getD 0`
because `0` is falsy in JavaScript and `0 || 0 = 0`. -/
def mkStats (cpuLoad : CpuLoad) (cpuTemp : CpuTemp) (mem : MemInfo)
    (fsSize : List Volume) (networkStats : List NetStat) (time : TimeInfo) :
    SystemStats :=
  { cpuUsage := round1 cpuLoad.currentLoad
    cpuTemp := cpuTemp.main.getD 0
    memoryUsed := round1 (mem.active / gib)
    memoryTotal := round1 (mem.total / gib)
    storageUsed := round1 ((mainDrive fsSize).used / gib)
    storageTotal := round1 ((mainDrive fsSize).size / gib)
    networkUp := round1 (netTxSec networkStats * 8 / 1000000)
    networkDown := round1 (netRxSec networkStats * 8 / 1000000)
    uptime := time.uptime }

/-- Insert one process into an already-built suffix, keeping it before the
first element whose `cpu` is not larger: this is the unique stable
descending order by `cpu`. -/
def insertByCpu (p : ProcIn) : List ProcIn → List ProcIn
  | [] => [p]
  | q :: qs => if q.cpu > p.cpu then q :: insertByCpu p qs else p :: q :: qs

/-- Model of `list.sort((a, b) => b.cpu - a.cpu)`.  `Array.prototype.sort` is
guaranteed stable (ES2019), and the stable sort for a total preorder is
unique, so the insertion sort below is an exact model of the call. -/
def sortByCpuDesc : List ProcIn → List ProcIn
  | [] => []
  | p :: ps => insertByCpu p (sortByCpuDesc ps)

/-- The `.map` body applied to each of the top processes. -/
def mapProc (p : ProcIn) : ProcOut :=
  { pid := p.pid
    name := p.name
    user := p.user
    cpu := round1 p.cpu
    mem := round1 p.mem
    status := if p.state = "sleeping" then "Sleeping" else "Running" }

/-- Model of `processes.list.sort((a, b) => b.cpu - a.cpu).slice(0, 5).map(...)`. -/
def topProcesses (l : List ProcIn) : List ProcOut :=
  ((sortByCpuDesc l).take 5).map mapProc

/-- The six fallible query results one tick's `Promise.all` waits on, plus
the synchronous `si.time()` value read while building `stats`. -/
structure TickInput where
  cpuLoad : Except Unit CpuLoad
  cpuTemp : Except Unit CpuTemp
  mem : Except Unit MemInfo
  fsSize : Except Unit (List Volume)
  networkStats : Except Unit (List NetStat)
  processes : Except Unit ProcessesResult
  time : TimeInfo
deriving Repr

/-- One execution of the `setInterval` callback.  `Promise.all` rejects as
soon as any component query rejects, and the surrounding `catch` only
logs, so the tick publishes `some (stats, topProcesses)` exactly when all
six queries resolve, and publishes nothing otherwise. -/
def tick (i : TickInput) : Option (SystemStats × List ProcOut) :=
  match i.cpuLoad, i.cpuTemp, i.mem, i.fsSize, i.networkStats, i.processes with
  | .ok cl, .ok ct, .ok m, .ok fs, .ok ns, .ok ps =>
      some (mkStats cl ct m fs ns i.time, topProcesses ps.list)
  | _, _, _, _, _, _ => none

/-- An event broadcast by `io.emit`. -/
inductive Event where
  | stats (s : SystemStats)
  | processes (l : List ProcOut)
deriving Repr, DecidableEq

/-- The events emitted during one tick, in emission order:
`io.emit('stats', stats)` then `io.emit('processes', topProcesses)`, or
nothing when the tick's `Promise.all` rejected. -/
def tickEvents (i : TickInput) : List Event :=
  match tick i with
  | some (s, p) => [Event.stats s, Event.processes p]
  | none => []

/-- The scheduler: `setInterval` fires the callback on every tick
independently of earlier outcomes (each callback's rejection is caught
inside it), so a run over a sequence of tick inputs is a plain map. -/
def schedulerRun (inputs : List TickInput) : List (List Event) :=
  inputs.map tickEvents

/-- Result of `si.osInfo()` restricted to the fields the code reads. -/
structure OsInfo where
  hostname : String
  distro : String
  release : String
  kernel : String
deriving Repr, DecidableEq

/-- One entry of `si.networkInterfaces()` restricted to the fields the code
reads; a missing IPv4 address is the empty (falsy) string. -/
structure NetIf where
  internal : Bool
  ip4 : String
deriving Repr, DecidableEq

/-- Model of `netInterfaces.find(i => !i.internal && i.ip4)`: first non-internal
interface whose `ip4` is truthy (non-empty). -/
def findMainInterface (l : List NetIf) : Option NetIf :=
  l.find? (fun i => !i.internal && i.ip4 != "")

/-- The `vm-info` payload. -/
structure VmInfo where
  instanceId : String
  status : String
  region : String
  ip : String
  os : String
  kernel : String
deriving Repr, DecidableEq

/-- JavaScript `s || d` on strings: the empty string is falsy. -/
def jsOrString (s d : String) : String :=
  if s = "" then d else s

/-- The `socket.emit('vm-info', ...)` payload built from the two resolved
one-shot queries; `mainInterface?.ip4 || '127.0.0.1'` falls back when no
interface was found or its `ip4` is falsy. -/
def mkVmInfo (osInfo : OsInfo) (netInterfaces : List NetIf) : VmInfo :=
  { instanceId := osInfo.hostname
    status := "Online"
    region := "Local"
    ip := jsOrString ((findMainInterface netInterfaces).elim "" (fun i => i.ip4)) "127.0.0.1"
    os := osInfo.distro ++ " " ++ osInfo.release
    kernel := osInfo.kernel }

/-- The connection handler's onboarding step: the one-shot
`Promise.all([si.osInfo(), si.networkInterfaces()])` under its own
`try`/`catch`; on rejection the handler only logs and emits no
`vm-info`. -/
def connectionVmInfo (r : Except Unit (OsInfo × List NetIf)) : Option VmInfo :=
  match r with
  | .ok (o, ns) => some (mkVmInfo o ns)
  | .error _ => none

/-- Broadcast of one tick: `io.emit` delivers each event to every connected
subscriber, identified here by socket id. -/
def deliveries (subs : List String) (i : TickInput) : List (String × Event) :=
  (tickEvents i).flatMap (fun e => subs.map (fun s => (s, e)))

/-- Whether a single query result resolved (`Promise` fulfilled). -/
def qOk {α : Type} : Except Unit α → Bool
  | .ok _ => true
  | .error _ => false

/-- Whether every query of the tick's `Promise.all` resolved. -/
def allQueriesOk (i : TickInput) : Bool :=
  qOk i.cpuLoad && qOk i.cpuTemp && qOk i.mem && qOk i.fsSize &&
    qOk i.networkStats && qOk i.processes

/-! Helper lemmas -/

theorem round1_mono {x y : ℚ} (h : x ≤ y) : round1 x ≤ round1 y := by
  unfold round1
  have hf : ⌊10 * x + 1 / 2⌋ ≤ ⌊10 * y + 1 / 2⌋ :=
    Int.floor_le_floor (by linarith)
  have hc : ((⌊10 * x + 1 / 2⌋ : ℤ) : ℚ) ≤ ((⌊10 * y + 1 / 2⌋ : ℤ) : ℚ) :=
    Int.cast_le.mpr hf
  linarith

theorem foldl_add_eq_sum {α : Type} (f : α → ℚ) (l : List α) (a : ℚ) :
    l.foldl (fun acc x => acc + f x) a = a + (l.map f).sum := by
  induction l generalizing a with
  | nil => simp
  | cons x xs ih => simp [ih, add_assoc]

theorem netRxSec_eq_sum (l : List NetStat) :
    netRxSec l = (l.map (fun i => i.rx_sec.getD 0)).sum := by
  unfold netRxSec
  simpa using foldl_add_eq_sum (fun i => i.rx_sec.getD 0) l 0

theorem netTxSec_eq_sum (l : List NetStat) :
    netTxSec l = (l.map (fun i => i.tx_sec.getD 0)).sum := by
  unfold netTxSec
  simpa using foldl_add_eq_sum (fun i => i.tx_sec.getD 0) l 0

theorem tick_eq_none_of_not_allOk (i : TickInput) (h : allQueriesOk i = false) :
    tick i = none := by
  obtain ⟨cl, ct, m, fs, ns, ps, t⟩ := i
  cases cl <;> cases ct <;> cases m <;> cases fs <;> cases ns <;> cases ps <;>
    simp_all [allQueriesOk, qOk, tick]

theorem tickEvents_eq_nil_of_tick_none (i : TickInput) (h : tick i = none) :
    tickEvents i = [] := by
  simp [tickEvents, h]

theorem foldl_choice_mem (v : Volume) (vs : List Volume) :
    vs.foldl (fun prev current => if prev.size > current.size then prev else current) v ∈ v :: vs := by
  induction vs generalizing v with
  | nil => simp
  | cons w ws ih =>
    simp only [List.foldl_cons]
    have h := ih (if v.size > w.size then v else w)
    by_cases hvw : v.size > w.size <;> simp [hvw] at h ⊢ <;> tauto

theorem foldl_choice_max (v : Volume) (vs : List Volume) :
    ∀ w ∈ v :: vs,
      w.size ≤ (vs.foldl (fun prev current => if prev.size > current.size then prev else current) v).size := by
  induction vs generalizing v with
  | nil => simp
  | cons u us ih =>
    intro w hw
    simp only [List.foldl_cons]
    have hacc : v.size ≤ (if v.size > u.size then v else u).size ∧
        u.size ≤ (if v.size > u.size then v else u).size := by
      by_cases h : v.size > u.size <;> simp [h] <;> linarith
    have hhead := ih (if v.size > u.size then v else u)
        (if v.size > u.size then v else u) (List.mem_cons_self _ _)
    rcases List.mem_cons.mp hw with rfl | hw
    · exact le_trans hacc.1 hhead
    · rcases List.mem_cons.mp hw with rfl | hw
      · exact le_trans hacc.2 hhead
      · exact ih (if v.size > u.size then v else u) w (List.mem_cons_of_mem _ hw)

theorem mainDrive_mem (v : Volume) (vs : List Volume) :
    mainDrive (v :: vs) ∈ v :: vs :=
  foldl_choice_mem v vs

theorem mainDrive_max (v : Volume) (vs : List Volume) :
    ∀ w ∈ v :: vs, w.size ≤ (mainDrive (v :: vs)).size :=
  foldl_choice_max v vs

theorem mainDrive_append (v : Volume) (vs : List Volume) (w : Volume) :
    mainDrive (v :: vs ++ [w]) =
      if (mainDrive (v :: vs)).size > w.size then mainDrive (v :: vs) else w := by
  show mainDrive (v :: (vs ++ [w])) = _
  simp [mainDrive, List.foldl_append]

theorem find?_append_first {α : Type} (p : α → Bool) (pre : List α) (i : α)
    (post : List α) (hpre : ∀ j ∈ pre, p j = false) (hi : p i = true) :
    (pre ++ i :: post).find? p = some i := by
  induction pre with
  | nil => simpa using List.find?_cons_of_pos post hi
  | cons a as ih =>
    have ha : p a = false := hpre a (List.mem_cons_self a as)
    simp only [List.cons_append]
    rw [List.find?_cons_of_neg _ (by simp [ha])]
    exact ih fun j hj => hpre j (List.mem_cons_of_mem a hj)

theorem mem_insertByCpu {x p : ProcIn} {l : List ProcIn} :
    x ∈ insertByCpu p l ↔ x = p ∨ x ∈ l := by
  induction l with
  | nil => simp [insertByCpu]
  | cons q qs ih =>
    by_cases h : q.cpu > p.cpu
    · simp [insertByCpu, h, ih]
      tauto
    · simp [insertByCpu, h]

theorem pairwise_insertByCpu {p : ProcIn} {l : List ProcIn}
    (h : l.Pairwise (fun a b => b.cpu ≤ a.cpu)) :
    (insertByCpu p l).Pairwise (fun a b => b.cpu ≤ a.cpu) := by
  induction l with
  | nil => simp [insertByCpu]
  | cons q qs ih =>
    rcases List.pairwise_cons.mp h with ⟨hq, hqs⟩
    by_cases hc : q.cpu > p.cpu
    · simp only [insertByCpu, if_pos hc]
      refine List.pairwise_cons.mpr ⟨?_, ih hqs⟩
      intro x hx
      rcases mem_insertByCpu.mp hx with rfl | hx
      · exact le_of_lt hc
      · exact hq x hx
    · simp only [insertByCpu, if_neg hc]
      push_neg at hc
      refine List.pairwise_cons.mpr ⟨?_, h⟩
      intro x hx
      rcases List.mem_cons.mp hx with rfl | hx
      · exact hc
      · exact le_trans (hq x hx) hc

theorem sortByCpuDesc_pairwise (l : List ProcIn) :
    (sortByCpuDesc l).Pairwise (fun a b => b.cpu ≤ a.cpu) := by
  induction l with
  | nil => simp [sortByCpuDesc]
  | cons p ps ih => exact pairwise_insertByCpu ih

theorem filter_insertByCpu (p : ProcIn) (l : List ProcIn) (c : ℚ) :
    (insertByCpu p l).filter (fun x => decide (x.cpu = c)) =
      (p :: l).filter (fun x => decide (x.cpu = c)) := by
  induction l with
  | nil => rfl
  | cons q qs ih =>
    by_cases hc : q.cpu > p.cpu
    · simp only [insertByCpu, if_pos hc]
      by_cases hq : q.cpu = c <;> by_cases hp : p.cpu = c
      · exact absurd (hq.trans hp.symm) (ne_of_gt hc)
      · simp [List.filter_cons, hq, hp] at ih ⊢
        exact ih
      · simp [List.filter_cons, hq, hp] at ih ⊢
        exact ih
      · simp [List.filter_cons, hq, hp] at ih ⊢
        exact ih
    · simp only [insertByCpu, if_neg hc]

theorem sortByCpuDesc_filter (l : List ProcIn) (c : ℚ) :
    (sortByCpuDesc l).filter (fun x => decide (x.cpu = c)) =
      l.filter (fun x => decide (x.cpu = c)) := by
  induction l with
  | nil => rfl
  | cons p ps ih =>
    show ((insertByCpu p (sortByCpuDesc ps)).filter _) = _
    rw [filter_insertByCpu]
    by_cases hp : p.cpu = c <;> simp [List.filter_cons, hp, ih]

/-! Claim theorems -/

/-- C1, counterexample: a tick in which exactly one metric-category query
(`cpuTemperature`) rejects and all five other queries succeed publishes
no snapshot at all — `Promise.all` rejects and the `catch` only logs —
contradicting the claim that a snapshot carrying the category default is
still published. -/
theorem C1_single_failure_counterexample :
    tick ⟨.ok ⟨50⟩, .error (), .ok ⟨2 * gib, 4 * gib⟩, .ok [⟨gib, 10 * gib⟩],
        .ok [⟨some 500000, some 250000⟩], .ok ⟨[]⟩, ⟨100⟩⟩ = none ∧
    tickEvents ⟨.ok ⟨50⟩, .error (), .ok ⟨2 * gib, 4 * gib⟩, .ok [⟨gib, 10 * gib⟩],
        .ok [⟨some 500000, some 250000⟩], .ok ⟨[]⟩, ⟨100⟩⟩ = [] :=
  ⟨rfl, rfl⟩

/-- C1, amended: for every tick in which any metric-category query fails
(in particular, exactly one), the whole aggregation is aborted: no
snapshot is published for that tick and nothing — neither data nor an
error — is surfaced to subscribers (the tick's event list is empty).
Category defaults apply only to absent values inside successful results,
not to rejected queries. -/
theorem C1_single_failure_skips_tick (i : TickInput) (h : allQueriesOk i = false) :
    tick i = none ∧ tickEvents i = [] :=
  ⟨tick_eq_none_of_not_allOk i h,
    tickEvents_eq_nil_of_tick_none i (tick_eq_none_of_not_allOk i h)⟩

/-- C1, witness for the amended theorem at a concrete input with exactly
one failing query. -/
theorem C1_single_failure_skips_tick_witness :
    tick ⟨.ok ⟨50⟩, .error (), .ok ⟨0, 0⟩, .ok [], .ok [], .ok ⟨[]⟩, ⟨0⟩⟩ = none ∧
    tickEvents ⟨.ok ⟨50⟩, .error (), .ok ⟨0, 0⟩, .ok [], .ok [], .ok ⟨[]⟩, ⟨0⟩⟩ = [] :=
  C1_single_failure_skips_tick ⟨.ok ⟨50⟩, .error (), .ok ⟨0, 0⟩, .ok [], .ok [], .ok ⟨[]⟩, ⟨0⟩⟩ rfl

/-- C4: the published `networkDown` (resp. `networkUp`) is the sum over
all interfaces of `rx_sec` (resp. `tx_sec`) with missing values counted
as `0`, times 8, divided by 1,000,000, rounded to one decimal; and the
spec's example `rx_sec = [500000, 250000]` yields exactly `6`. -/
theorem C4_network_totals (cl : CpuLoad) (ct : CpuTemp) (m : MemInfo)
    (fs : List Volume) (ns : List NetStat) (t : TimeInfo) :
    (mkStats cl ct m fs ns t).networkDown
      = round1 ((ns.map (fun i => i.rx_sec.getD 0)).sum * 8 / 1000000) ∧
    (mkStats cl ct m fs ns t).networkUp
      = round1 ((ns.map (fun i => i.tx_sec.getD 0)).sum * 8 / 1000000) ∧
    (mkStats cl ct m fs [⟨some 500000, none⟩, ⟨some 250000, none⟩] t).networkDown = 6 := by
  refine ⟨by simp [mkStats, netRxSec_eq_sum], by simp [mkStats, netTxSec_eq_sum], ?_⟩
  show round1 (netRxSec [⟨some 500000, none⟩, ⟨some 250000, none⟩] * 8 / 1000000) = 6
  norm_num [netRxSec, round1]

/-- C5: when every query succeeds but `cpuTemperature()` carries no
`main` value, the published `cpuTemp` is exactly `0` and the tick still
emits its `stats` and `processes` events. -/
theorem C5_missing_temp_defaults_to_zero (cl : CpuLoad) (m : MemInfo)
    (fs : List Volume) (ns : List NetStat) (ps : ProcessesResult) (t : TimeInfo) :
    (mkStats cl ⟨none⟩ m fs ns t).cpuTemp = 0 ∧
    tickEvents ⟨.ok cl, .ok ⟨none⟩, .ok m, .ok fs, .ok ns, .ok ps, t⟩ =
      [Event.stats (mkStats cl ⟨none⟩ m fs ns t),
       Event.processes (topProcesses ps.list)] :=
  ⟨rfl, rfl⟩

/-- C6: when the `processes()` query rejects, the tick publishes neither
a `stats` nor a `processes` event (the cycle is skipped), and the
scheduler — a per-tick map whose callbacks each catch their own
failure — still runs every earlier and later tick unchanged. -/
theorem C6_processes_reject_skips_cycle (i : TickInput) (h : i.processes = .error ()) :
    tickEvents i = [] ∧
    ∀ pre post : List TickInput,
      schedulerRun (pre ++ i :: post) = schedulerRun pre ++ [] :: schedulerRun post := by
  have hnone : tick i = none := by
    apply tick_eq_none_of_not_allOk
    simp [allQueriesOk, h, qOk]
  have hnil : tickEvents i = [] := tickEvents_eq_nil_of_tick_none i hnone
  exact ⟨hnil, fun pre post => by simp [schedulerRun, hnil]⟩

/-- C6, witness at a concrete tick whose `processes()` query rejects,
with a one-tick run on either side. -/
theorem C6_processes_reject_skips_cycle_witness :
    tickEvents ⟨.ok ⟨0⟩, .ok ⟨none⟩, .ok ⟨0, 0⟩, .ok [], .ok [], .error (), ⟨0⟩⟩ = [] ∧
    schedulerRun ([] ++ ⟨.ok ⟨0⟩, .ok ⟨none⟩, .ok ⟨0, 0⟩, .ok [], .ok [], .error (), ⟨0⟩⟩ :: []) =
      schedulerRun [] ++ [] :: schedulerRun [] :=
  ⟨(C6_processes_reject_skips_cycle _ rfl).1,
    (C6_processes_reject_skips_cycle ⟨.ok ⟨0⟩, .ok ⟨none⟩, .ok ⟨0, 0⟩, .ok [], .ok [], .error (), ⟨0⟩⟩ rfl).2 [] []⟩

/-- C2, counterexample: for two volumes of equal size, the `reduce`
keeps `current`, not `prev` — `mainDrive [⟨10,100⟩, ⟨5,100⟩]` is the
second volume, not the first-encountered one as the claim states. -/
theorem C2_tie_counterexample :
    mainDrive [⟨10, 100⟩, ⟨5, 100⟩] = ⟨5, 100⟩ ∧
    (⟨5, 100⟩ : Volume) ≠ ⟨10, 100⟩ := by
  constructor
  · show (if (100 : ℚ) > 100 then (⟨10, 100⟩ : Volume) else ⟨5, 100⟩) = ⟨5, 100⟩
    norm_num
  · intro h
    have := congrArg Volume.used h
    norm_num at this

/-- C2, amended: for every non-empty volume list the storage figures are
taken from a single volume of largest total size, with ties broken in
favor of the *last*-encountered volume (appending `w` replaces the
previous choice unless that choice is strictly larger); for the empty
list, `used = 0` and `total = 0`; for two volumes the one with the
larger (or equal) size is selected, never their sum. -/
theorem C2_largest_volume_selected :
    mainDrive [] = ⟨0, 0⟩ ∧
    (∀ v vs, mainDrive (v :: vs) ∈ v :: vs ∧
      ∀ w ∈ v :: vs, w.size ≤ (mainDrive (v :: vs)).size) ∧
    (∀ v vs w, mainDrive (v :: vs ++ [w]) =
      if (mainDrive (v :: vs)).size > w.size then mainDrive (v :: vs) else w) ∧
    (∀ a b : Volume, a.size ≤ b.size → mainDrive [a, b] = b) := by
  refine ⟨rfl, fun v vs => ⟨mainDrive_mem v vs, mainDrive_max v vs⟩,
    mainDrive_append, fun a b hab => ?_⟩
  show (if a.size > b.size then a else b) = b
  simp [not_lt.mpr hab]

/-- C2, witness: the spec's own example — of `[{used 10, size 100},
{used 5, size 500}]` the second, larger volume is selected. -/
theorem C2_largest_volume_selected_witness :
    mainDrive [⟨10, 100⟩, ⟨5, 500⟩] = ⟨5, 500⟩ :=
  C2_largest_volume_selected.2.2.2 ⟨10, 100⟩ ⟨5, 500⟩ (by norm_num)

/-- C7: when every query succeeds and each source respects used ≤ total
(memory `active ≤ total`, every volume `used ≤ size`), the published
snapshot satisfies `memoryUsed ≤ memoryTotal` and
`storageUsed ≤ storageTotal` after GiB conversion and rounding. -/
theorem C7_used_le_total (cl : CpuLoad) (ct : CpuTemp) (m : MemInfo)
    (fs : List Volume) (ns : List NetStat) (t : TimeInfo)
    (hm : m.active ≤ m.total) (hfs : ∀ v ∈ fs, v.used ≤ v.size) :
    (mkStats cl ct m fs ns t).memoryUsed ≤ (mkStats cl ct m fs ns t).memoryTotal ∧
    (mkStats cl ct m fs ns t).storageUsed ≤ (mkStats cl ct m fs ns t).storageTotal := by
  have hgib : (0 : ℚ) < gib := by norm_num [gib]
  constructor
  · show round1 (m.active / gib) ≤ round1 (m.total / gib)
    exact round1_mono (by gcongr)
  · show round1 ((mainDrive fs).used / gib) ≤ round1 ((mainDrive fs).size / gib)
    have hms : (mainDrive fs).used ≤ (mainDrive fs).size := by
      cases fs with
      | nil => simp [mainDrive]
      | cons v vs => exact hfs _ (mainDrive_mem v vs)
    exact round1_mono (by gcongr)

/-- C7, witness at a concrete all-successful tick input. -/
theorem C7_used_le_total_witness :
    (mkStats ⟨50⟩ ⟨some 40⟩ ⟨2, 4⟩ [⟨1, 3⟩] [] ⟨9⟩).memoryUsed ≤
      (mkStats ⟨50⟩ ⟨some 40⟩ ⟨2, 4⟩ [⟨1, 3⟩] [] ⟨9⟩).memoryTotal ∧
    (mkStats ⟨50⟩ ⟨some 40⟩ ⟨2, 4⟩ [⟨1, 3⟩] [] ⟨9⟩).storageUsed ≤
      (mkStats ⟨50⟩ ⟨some 40⟩ ⟨2, 4⟩ [⟨1, 3⟩] [] ⟨9⟩).storageTotal :=
  C7_used_le_total ⟨50⟩ ⟨some 40⟩ ⟨2, 4⟩ [⟨1, 3⟩] [] ⟨9⟩ (by norm_num)
    (by intro v hv; simp at hv; subst hv; norm_num)

/-- C9: a subscriber whose one-shot identity query rejects gets no
`vm-info` for that connection, and — since the periodic broadcast goes
to every connected socket regardless of onboarding outcome — still
receives the tick's `stats` and `processes` events whenever any
subscriber does. -/
theorem C9_onboarding_failure_nonfatal (s : String) (subs : List String)
    (i : TickInput) (st : SystemStats) (ps : List ProcOut)
    (hs : s ∈ subs) (h : tick i = some (st, ps)) :
    connectionVmInfo (.error ()) = none ∧
    (s, Event.stats st) ∈ deliveries subs i ∧
    (s, Event.processes ps) ∈ deliveries subs i := by
  refine ⟨rfl, ?_, ?_⟩ <;>
    simp [deliveries, tickEvents, h, List.mem_flatMap] <;>
    exact hs

/-- C9, witness: concrete subscriber `"a"`, a one-subscriber room and an
all-successful tick. -/
theorem C9_onboarding_failure_nonfatal_witness :
    connectionVmInfo (.error ()) = none ∧
    ("a", Event.stats (mkStats ⟨0⟩ ⟨none⟩ ⟨0, 0⟩ [] [] ⟨0⟩)) ∈
      deliveries ["a"] ⟨.ok ⟨0⟩, .ok ⟨none⟩, .ok ⟨0, 0⟩, .ok [], .ok [], .ok ⟨[]⟩, ⟨0⟩⟩ ∧
    ("a", Event.processes []) ∈
      deliveries ["a"] ⟨.ok ⟨0⟩, .ok ⟨none⟩, .ok ⟨0, 0⟩, .ok [], .ok [], .ok ⟨[]⟩, ⟨0⟩⟩ :=
  C9_onboarding_failure_nonfatal "a" ["a"]
    ⟨.ok ⟨0⟩, .ok ⟨none⟩, .ok ⟨0, 0⟩, .ok [], .ok [], .ok ⟨[]⟩, ⟨0⟩⟩
    (mkStats ⟨0⟩ ⟨none⟩ ⟨0, 0⟩ [] [] ⟨0⟩) [] (by simp) rfl

/-- C8: the `vm-info` payload has `status = "Online"`, `region = "Local"`,
`os` = distro and release joined by one space, `kernel` and hostname
passed through, and `ip` = the `ip4` of the first non-internal interface
with a (truthy, i.e. non-empty) IPv4 address, or `"127.0.0.1"` when no
such interface exists. -/
theorem C8_vm_info_payload (o : OsInfo) (ns : List NetIf) :
    (mkVmInfo o ns).status = "Online" ∧
    (mkVmInfo o ns).region = "Local" ∧
    (mkVmInfo o ns).os = o.distro ++ " " ++ o.release ∧
    (mkVmInfo o ns).kernel = o.kernel ∧
    (mkVmInfo o ns).instanceId = o.hostname ∧
    ((∀ j ∈ ns, j.internal = true ∨ j.ip4 = "") → (mkVmInfo o ns).ip = "127.0.0.1") ∧
    (∀ pre i post, ns = pre ++ i :: post → i.internal = false → i.ip4 ≠ "" →
      (∀ j ∈ pre, j.internal = true ∨ j.ip4 = "") → (mkVmInfo o ns).ip = i.ip4) := by
  refine ⟨rfl, rfl, rfl, rfl, rfl, ?_, ?_⟩
  · intro h
    have hf : findMainInterface ns = none := by
      apply List.find?_eq_none.mpr
      intro x hx
      rcases h x hx with h1 | h1 <;> simp [h1]
    simp [mkVmInfo, hf, jsOrString]
  · intro pre i post hns hint hip hpre
    have hf : findMainInterface ns = some i := by
      subst hns
      apply find?_append_first
      · intro j hj
        rcases hpre j hj with h1 | h1 <;> simp [h1]
      · simp [hint, hip]
    simp [mkVmInfo, hf, jsOrString, hip]

/-- C8, witness: a concrete interface list whose third entry is the
first non-internal one with a non-empty IPv4 address. -/
theorem C8_vm_info_payload_witness :
    (mkVmInfo ⟨"host", "Ubuntu", "22.04", "5.15.0"⟩
        [⟨true, "10.0.0.1"⟩, ⟨false, ""⟩, ⟨false, "192.168.1.7"⟩, ⟨false, "192.168.1.8"⟩]).os
      = "Ubuntu 22.04" ∧
    (mkVmInfo ⟨"host", "Ubuntu", "22.04", "5.15.0"⟩
        [⟨true, "10.0.0.1"⟩, ⟨false, ""⟩, ⟨false, "192.168.1.7"⟩, ⟨false, "192.168.1.8"⟩]).ip
      = "192.168.1.7" :=
  ⟨(C8_vm_info_payload ⟨"host", "Ubuntu", "22.04", "5.15.0"⟩
      [⟨true, "10.0.0.1"⟩, ⟨false, ""⟩, ⟨false, "192.168.1.7"⟩, ⟨false, "192.168.1.8"⟩]).2.2.1,
    (C8_vm_info_payload ⟨"host", "Ubuntu", "22.04", "5.15.0"⟩
      [⟨true, "10.0.0.1"⟩, ⟨false, ""⟩, ⟨false, "192.168.1.7"⟩, ⟨false, "192.168.1.8"⟩]).2.2.2.2.2.2
      [⟨true, "10.0.0.1"⟩, ⟨false, ""⟩] ⟨false, "192.168.1.7"⟩ [⟨false, "192.168.1.8"⟩]
      rfl rfl (by decide) (by decide)⟩

/-- C3, counterexample: two source processes with distinct raw cpu
`1.01` and `1.04` both publish `cpuPercent = 1.0` after rounding, yet
appear in the published list in the reverse of their source order (pids
`[2, 1]` against source order `[1, 2]`), so entries with equal published
`cpuPercent` do not always preserve source order. -/
theorem C3_rounding_breaks_published_stability :
    (topProcesses [⟨1, "a", "u", 101 / 100, 0, "running"⟩,
        ⟨2, "b", "u", 26 / 25, 0, "running"⟩]).map (fun p => (p.pid, p.cpu))
      = [(2, 1), (1, 1)] := by
  have h : ((⟨1, "a", "u", 101 / 100, 0, "running"⟩ : ProcIn).cpu
      < (⟨2, "b", "u", 26 / 25, 0, "running"⟩ : ProcIn).cpu) := by norm_num
  simp only [topProcesses, sortByCpuDesc, insertByCpu, if_pos h, List.take,
    List.map, mapProc]
  norm_num [round1]

/-- C3, amended: the published list has length at most 5 and its
published `cpuPercent` values are non-increasing; the sort is stable
with respect to the raw source cpu values — for every cpu value `c`, the
retained entries with raw cpu `c` appear in their source order (a
sublist of the source's `c`-entries) — but entries whose distinct raw
cpu values round to the same published `cpuPercent` may appear out of
source order. -/
theorem C3_top5_sorted_stable_raw (l : List ProcIn) :
    (topProcesses l).length ≤ 5 ∧
    (topProcesses l).Pairwise (fun a b => b.cpu ≤ a.cpu) ∧
    ∀ c : ℚ,
      (((sortByCpuDesc l).take 5).filter (fun x => decide (x.cpu = c))).Sublist
        (l.filter (fun x => decide (x.cpu = c))) := by
  refine ⟨?_, ?_, ?_⟩
  · simp only [topProcesses, List.length_map, List.length_take]
    omega
  · have ht : ((sortByCpuDesc l).take 5).Pairwise (fun a b => b.cpu ≤ a.cpu) :=
      List.Pairwise.sublist (List.take_sublist 5 _) (sortByCpuDesc_pairwise l)
    unfold topProcesses
    rw [List.pairwise_map]
    exact ht.imp fun h => round1_mono h
  · intro c
    have h := (List.take_sublist 5 (sortByCpuDesc l)).filter
      (fun x => decide (x.cpu = c))
    rwa [sortByCpuDesc_filter] at h

/-- C10: in every tick the `stats` and `processes` events are published
both-or-neither, and when both are published the `stats` event comes
first. -/
theorem C10_stats_processes_both_or_neither (i : TickInput) :
    tickEvents i = [] ∨
    ∃ s p, tickEvents i = [Event.stats s, Event.processes p] := by
  rcases h : tick i with _ | ⟨s, p⟩
  · exact Or.inl (by simp [tickEvents, h])
  · exact Or.inr ⟨s, p, by simp [tickEvents, h]⟩

end SysMon
